import Mathlib

/-!
Shallow embedding of the turn-based grid exploration game driver
(`driver.py`, class `GameDriver`).  Locations are integer pairs, the
authoritative map is a total function from locations to tiles, and the
mutable dictionaries of the Python code are modelled as association lists.
Monetary quantities (agent strength, monster strength, power-up delta) are
integers, as in Python; the uniform random draw of `np.random.random()` is
an explicit rational parameter in `[0, 1)`.
-/

namespace Game

/-- A map coordinate `(row, col)`; moves may leave the board, so both
components are integers. -/
abbrev Loc := ℤ × ℤ

/-- Modelled from the spec: `utils.MapTiles` is not under `src/`; the spec
lists the variants `{Wall, TerrainA, TerrainB, TerrainC, Unknown}`, with
`Unknown` a sentinel valid only in per-agent private maps. -/
inductive Tile where
  | wall
  | terrainA
  | terrainB
  | terrainC
  | unknown
deriving DecidableEq, Repr

/-- Modelled from the spec: `utils.Directions` is not under `src/`; the
driver dispatches on exactly the four members below. -/
inductive Direction where
  | north
  | south
  | east
  | west
deriving DecidableEq, Repr

/-- Modelled from the spec: `utils.PowerUp`, `utils.StaticMonster` and
`utils.Boss` are not under `src/`; the spec gives the closed variant type
`PowerUp {delta} | StaticMonster {strength} | Boss {}`. -/
inductive GameObject where
  | powerUp (delta : ℤ)
  | staticMonster (strength : ℤ)
  | boss
deriving DecidableEq, Repr

/-- First-match lookup in an association list keyed by location; models
Python dictionary lookup (`d[k]` / `k in d`). -/
def lookupLoc {α : Type} (xs : List (Loc × α)) (l : Loc) : Option α :=
  match xs with
  | [] => none
  | (k, v) :: rest => if k = l then some v else lookupLoc rest l

/-- Removal of a key from an association list; models Python `del d[k]`
(keys are unique in a Python dict, so filtering all occurrences agrees). -/
def eraseLoc {α : Type} (xs : List (Loc × α)) (l : Loc) : List (Loc × α) :=
  xs.filter (fun p => p.1 ≠ l)

/-- Reading a private-map cell: an absent entry is the `Unknown` sentinel,
modelling the all-`UKNOWN` numpy array the driver creates per agent. -/
def lookupTile (m : List (Loc × Tile)) (l : Loc) : Tile :=
  (lookupLoc m l).getD Tile.unknown

/-- `0 <= row < height and 0 <= col < width`, the bounds test the driver
performs on candidate cells. -/
def inBounds (height width : ℤ) (l : Loc) : Prop :=
  0 ≤ l.1 ∧ l.1 < height ∧ 0 ≤ l.2 ∧ l.2 < width

instance (height width : ℤ) (l : Loc) : Decidable (inBounds height width l) := by
  unfold inBounds; infer_instance

/-- The single-cell offset the driver applies for each direction
(`driver.py` lines 108-115): north is row-1, west is col-1, south is
row+1, and the final `else` branch (east) is col+1. -/
def offsetOf : Direction → Loc
  | Direction.north => (-1, 0)
  | Direction.west => (0, -1)
  | Direction.south => (1, 0)
  | Direction.east => (0, 1)

/-- Candidate destination: current location plus the direction offset. -/
def dstLoc (cur : Loc) (d : Direction) : Loc :=
  (cur.1 + (offsetOf d).1, cur.2 + (offsetOf d).2)

/-- Move resolution, `driver.py` lines 117-131: out-of-bounds, wall, and
unaffordable moves leave the agent in place at a cost of 1; otherwise the
agent moves and pays the destination tile's cost.  `tileCost` stands for
`utils.tile_cost` (not under `src/`; the spec specifies a fixed
non-negative integer cost per non-wall terrain variant, which we keep
abstract).  Returns the final location and the updated strength. -/
def moveResolve (height width : ℤ) (gameMap : Loc → Tile) (tileCost : Tile → ℤ)
    (cur : Loc) (strength : ℤ) (d : Direction) : Loc × ℤ :=
  let dst := dstLoc cur d
  if ¬ inBounds height width dst then
    (cur, strength - 1)
  else if gameMap dst = Tile.wall then
    (cur, strength - 1)
  else if strength < tileCost (gameMap dst) then
    (cur, strength - 1)
  else
    (dst, strength - tileCost (gameMap dst))

/-- The authoritative game state plus the per-agent knowledge stores owned
by `GameDriver`: `game_map`, `objects`, `goal_loc`, `initial_strength`, and
the parallel per-agent lists `agent_locations`, `agent_strengths`,
`agent_maps`, `agent_objects`.  `numAgents` is `len(self.agents)`. -/
structure GameState where
  height : ℤ
  width : ℤ
  gameMap : Loc → Tile
  objects : List (Loc × GameObject)
  goalLoc : Loc
  initialStrength : ℤ
  numAgents : ℕ
  agentLocs : List Loc
  agentStrengths : List ℤ
  agentMaps : List (List (Loc × Tile))
  agentObjects : List (List (Loc × GameObject))

/-- The eight Moore-neighborhood offsets in the order produced by
`product([-1, 0, 1], repeat=2)` with `(0, 0)` skipped
(`driver.py` lines 81-83). -/
def neighborOffsets : List (ℤ × ℤ) :=
  [(-1, -1), (-1, 0), (-1, 1), (0, -1), (0, 1), (1, -1), (1, 0), (1, 1)]

/-- One iteration of the visibility-refresh loop (`driver.py` lines 84-93)
at the neighbor cell `l`: reveal the terrain into the private map only if
the cell is in bounds and still `Unknown`, and snapshot any authoritative
object at `l` into the private object map (the object check is not bounds
guarded, exactly as in the source). -/
def refreshCell (height width : ℤ) (gameMap : Loc → Tile)
    (objects : List (Loc × GameObject))
    (acc : List (Loc × Tile) × List (Loc × GameObject)) (l : Loc) :
    List (Loc × Tile) × List (Loc × GameObject) :=
  let pm :=
    if inBounds height width l ∧ lookupTile acc.1 l = Tile.unknown then
      (l, gameMap l) :: acc.1
    else acc.1
  let po :=
    match lookupLoc objects l with
    | some o => (l, o) :: acc.2
    | none => acc.2
  (pm, po)

/-- The whole visibility refresh for one agent at `cur`: fold
`refreshCell` over the eight neighbor offsets. -/
def refresh (height width : ℤ) (gameMap : Loc → Tile)
    (objects : List (Loc × GameObject)) (cur : Loc)
    (pm : List (Loc × Tile)) (po : List (Loc × GameObject)) :
    List (Loc × Tile) × List (Loc × GameObject) :=
  neighborOffsets.foldl
    (fun acc off => refreshCell height width gameMap objects acc
      (cur.1 + off.1, cur.2 + off.2))
    (pm, po)

/-- Visibility refresh applied to the acting agent's entries in the
state (`driver.py` lines 80-93); only agent `idx`'s private map and
private object map change. -/
def refreshState (s : GameState) (idx : ℕ) : GameState :=
  let cur := s.agentLocs.getD idx (0, 0)
  let r := refresh s.height s.width s.gameMap s.objects cur
    (s.agentMaps.getD idx []) (s.agentObjects.getD idx [])
  { s with agentMaps := s.agentMaps.set idx r.1,
           agentObjects := s.agentObjects.set idx r.2 }

/-- The knowledge-retraction loop of `driver.py` lines 137-139 and
151-153: `for i in range(len(self.agents)): if final_loc in
self.agent_objects[idx]: del self.agent_objects[idx][final_loc]`.  The
loop variable `i` is never used in the body — every iteration deletes
from agent `idx`'s private object map, faithfully reproduced here. -/
def purgeLoop (numAgents idx : ℕ) (aObjs : List (List (Loc × GameObject)))
    (l : Loc) : List (List (Loc × GameObject)) :=
  (List.range numAgents).foldl
    (fun acc _ => acc.set idx (eraseLoc (acc.getD idx []) l)) aObjs

/-- Result of object-interaction resolution: the acting agent's updated
strength, the authoritative object map, and all private object maps. -/
structure InteractionOut where
  strength : ℤ
  objects : List (Loc × GameObject)
  agentObjects : List (List (Loc × GameObject))
deriving DecidableEq, Repr

/-- Object-interaction resolution, `driver.py` lines 133-156.  A power-up
adds its delta and is deleted; a static monster triggers the fight: the
win chance is `strength / (strength + monster.strength)` (Python integer
truth: a zero denominator raises `ZeroDivisionError`, modelled as `none`),
the agent wins exactly when `draw > winChance` (resetting strength to
`initial_strength + monster.strength`, deleting the monster), and
otherwise its strength becomes 0.  A boss or an empty cell changes
nothing. -/
def resolveInteraction (initialStrength : ℤ) (numAgents idx : ℕ)
    (objects : List (Loc × GameObject))
    (aObjs : List (List (Loc × GameObject)))
    (finalLoc : Loc) (strength : ℤ) (draw : ℚ) : Option InteractionOut :=
  match lookupLoc objects finalLoc with
  | some (GameObject.powerUp delta) =>
      some ⟨strength + delta, eraseLoc objects finalLoc,
            purgeLoop numAgents idx aObjs finalLoc⟩
  | some (GameObject.staticMonster ms) =>
      if strength + ms = 0 then
        none
      else
        let winChance : ℚ := (strength : ℚ) / ((strength : ℚ) + (ms : ℚ))
        if winChance < draw then
          some ⟨initialStrength + ms, eraseLoc objects finalLoc,
                purgeLoop numAgents idx aObjs finalLoc⟩
        else
          some ⟨0, objects, aObjs⟩
  | some GameObject.boss => some ⟨strength, objects, aObjs⟩
  | none => some ⟨strength, objects, aObjs⟩

/-- Per-step terminal status of the game loop (`driver.py` lines 159-164):
the acting agent died, won, or the loop continues. -/
inductive Status where
  | running
  | died (idx : ℕ)
  | won (idx : ℕ)
deriving DecidableEq, Repr

/-- The two exceptions the loop body can raise: the
`assert isinstance(direction, utils.Directions)` contract violation, and
the `ZeroDivisionError` of the win-chance computation. -/
inductive StepError where
  | invalidDecision
  | divByZero
deriving DecidableEq, Repr

/-- Result of one loop-body execution: either an exception escaping with
the state as already mutated at the raise point, or a normal completion
with the updated state and the step's status. -/
inductive StepResult where
  | err (e : StepError) (s : GameState)
  | ok (s : GameState) (st : Status)

/-- One execution of the body of `GameDriver.play` (`driver.py` lines
71-164) for acting agent `idx`.  The decision function's return value is
the oracle `d` (`none` models any value that is not a `Directions`
member), and `draw` is the `np.random.random()` oracle.  Order follows
the source: visibility refresh, decision, contract assert, move
resolution, object interaction, location write-back, termination check. -/
def playStep (tileCost : Tile → ℤ) (s : GameState) (idx : ℕ)
    (d : Option Direction) (draw : ℚ) : StepResult :=
  let s1 := refreshState s idx
  match d with
  | none => StepResult.err StepError.invalidDecision s1
  | some dir =>
    let cur := s.agentLocs.getD idx (0, 0)
    let str0 := s.agentStrengths.getD idx 0
    let mv := moveResolve s.height s.width s.gameMap tileCost cur str0 dir
    match resolveInteraction s.initialStrength s.numAgents idx s1.objects
        (s1.agentObjects) mv.1 mv.2 draw with
    | none =>
        StepResult.err StepError.divByZero
          { s1 with agentStrengths := s1.agentStrengths.set idx mv.2 }
    | some out =>
        let s2 : GameState :=
          { s1 with objects := out.objects,
                    agentObjects := out.agentObjects,
                    agentStrengths := s1.agentStrengths.set idx out.strength,
                    agentLocs := s1.agentLocs.set idx mv.1 }
        if out.strength ≤ 0 then StepResult.ok s2 (Status.died idx)
        else if mv.1 = s.goalLoc then StepResult.ok s2 (Status.won idx)
        else StepResult.ok s2 Status.running

/-- The game state carried by a step result (the state as mutated at the
raise point for exceptions, the completed state otherwise). -/
def StepResult.state : StepResult → GameState
  | StepResult.err _ s => s
  | StepResult.ok s _ => s

/-- The status of a normally completed step, `none` for exceptions. -/
def StepResult.status : StepResult → Option Status
  | StepResult.err _ _ => none
  | StepResult.ok _ st => some st

/-- The exception of a failed step, `none` for normal completion. -/
def StepResult.error : StepResult → Option StepError
  | StepResult.err e _ => some e
  | StepResult.ok _ _ => none

/-- Outcome of running the loop of `GameDriver.play`: an exception
escaped, the loop broke on a death or win, or the fuel ran out with the
game still in progress. -/
inductive RunResult where
  | aborted (e : StepError) (s : GameState)
  | ended (st : Status) (s : GameState)
  | outOfFuel (s : GameState)

/-- The loop of `GameDriver.play` (`driver.py` line 70): round-robin over
agents via `idx = step % numAgents`, executing the body until a death or
win breaks the loop; `ds` and `draws` are the per-step decision and
random-draw oracles, and `fuel` bounds the number of iterations. -/
def playRun (tileCost : Tile → ℤ) (ds : ℕ → Option Direction)
    (draws : ℕ → ℚ) : ℕ → ℕ → GameState → RunResult
  | 0, _, s => RunResult.outOfFuel s
  | fuel + 1, step, s =>
    let idx := step % s.numAgents
    match playStep tileCost s idx (ds step) (draws step) with
    | StepResult.err e s1 => RunResult.aborted e s1
    | StepResult.ok s1 Status.running => playRun tileCost ds draws fuel (step + 1) s1
    | StepResult.ok s1 st => RunResult.ended st s1

/-- The game state carried by a run result. -/
def RunResult.state : RunResult → GameState
  | RunResult.aborted _ s => s
  | RunResult.ended _ s => s
  | RunResult.outOfFuel s => s

/-- `np.where(self.game_map != utils.MapTiles.WALL)` of
`GameDriver.initialize_game` (`driver.py` line 176): the in-bounds
non-wall cells in row-major order. -/
def nonwallLocs (h w : ℕ) (gameMap : Loc → Tile) : List Loc :=
  (List.range h).flatMap (fun i =>
    (List.range w).filterMap (fun j =>
      if gameMap ((i : ℤ), (j : ℤ)) = Tile.wall then none
      else some ((i : ℤ), (j : ℤ))))

/-- The re-draw loop of `GameDriver.initialize_game` (`driver.py` lines
197-202): draw an index into the non-wall cell list, and re-draw while
the chosen location is the goal or coincides with an already placed
agent.  `picks` is the `np.random.choice` oracle indexed by draw count
`t`; `fuel` bounds the number of re-draws (`none` models a
never-terminating loop). -/
def drawLoc (nonwall : List Loc) (goal : Loc) (prev : List Loc)
    (picks : ℕ → ℕ) : ℕ → ℕ → Option (Loc × ℕ)
  | 0, _ => none
  | fuel + 1, t =>
    let loc := nonwall.getD (picks t) (0, 0)
    if loc = goal ∨ loc ∈ prev then drawLoc nonwall goal prev picks fuel (t + 1)
    else some (loc, t + 1)

/-- The agent-placement loop of `GameDriver.initialize_game`
(`driver.py` lines 196-203): place `n` agents in order, each by
`drawLoc` against the locations placed so far, appending to `acc`. -/
def placeAgents (nonwall : List Loc) (goal : Loc) (picks : ℕ → ℕ)
    (fuel : ℕ) : ℕ → ℕ → List Loc → Option (List Loc × ℕ)
  | 0, t, acc => some (acc, t)
  | n + 1, t, acc =>
    match drawLoc nonwall goal acc picks fuel t with
    | none => none
    | some (loc, t1) => placeAgents nonwall goal picks fuel n t1 (acc ++ [loc])

/-! ## General lemmas about the association-list operations -/

theorem lookupLoc_eraseLoc_self {α : Type} (xs : List (Loc × α)) (l : Loc) :
    lookupLoc (eraseLoc xs l) l = none := by
  induction xs with
  | nil => rfl
  | cons p rest ih =>
    by_cases h : p.1 = l
    · simpa [eraseLoc, List.filter_cons, h] using ih
    · simpa [eraseLoc, List.filter_cons, h, lookupLoc] using ih

theorem getD_set_self {α : Type} (l : List α) (i : ℕ) (a d : α)
    (h : i < l.length) : (l.set i a).getD i d = a := by
  simp [List.getD_eq_getElem?_getD, List.getElem?_set_self',
    List.getElem?_eq_getElem h]

theorem refreshState_agentStrengths (s : GameState) (idx : ℕ) :
    (refreshState s idx).agentStrengths = s.agentStrengths := rfl

theorem refreshState_agentLocs (s : GameState) (idx : ℕ) :
    (refreshState s idx).agentLocs = s.agentLocs := rfl

/-! ## Claim theorems -/

/-- C1: for every turn step, move resolution changes the acting agent's
resource by exactly one of two amounts: if the candidate destination is
out of bounds, is a wall, or its terrain cost exceeds the agent's current
resource, the location is unchanged and the resource decreases by exactly
1; otherwise the location becomes the destination and the resource
decreases by exactly the destination terrain's cost — never any other
delta. -/
theorem move_resolution_cost_dichotomy (height width : ℤ)
    (gameMap : Loc → Tile) (tileCost : Tile → ℤ) (cur : Loc) (strength : ℤ)
    (d : Direction) :
    moveResolve height width gameMap tileCost cur strength d =
      if inBounds height width (dstLoc cur d)
          ∧ gameMap (dstLoc cur d) ≠ Tile.wall
          ∧ tileCost (gameMap (dstLoc cur d)) ≤ strength then
        (dstLoc cur d, strength - tileCost (gameMap (dstLoc cur d)))
      else
        (cur, strength - 1) := by
  unfold moveResolve
  split_ifs <;> first | rfl | simp_all

/-- C2: combat resolution against a static monster with a fixed draw is
deterministic: if the draw is strictly greater than
`strength / (strength + monsterStrength)`, the agent's strength becomes
the configured initial strength plus the monster's strength and the
monster is removed from the authoritative object map; otherwise the
agent's strength is set to 0 and the object map is unchanged, so the
monster remains. -/
theorem combat_fixed_draw_dichotomy (initialStrength : ℤ)
    (numAgents idx : ℕ) (objects : List (Loc × GameObject))
    (aObjs : List (List (Loc × GameObject))) (l : Loc) (strength ms : ℤ)
    (draw : ℚ)
    (hobj : lookupLoc objects l = some (GameObject.staticMonster ms))
    (hden : strength + ms ≠ 0) (hd0 : 0 ≤ draw) (hd1 : draw < 1) :
    resolveInteraction initialStrength numAgents idx objects aObjs l
        strength draw =
      some (if (strength : ℚ) / ((strength : ℚ) + (ms : ℚ)) < draw then
              ⟨initialStrength + ms, eraseLoc objects l,
               purgeLoop numAgents idx aObjs l⟩
            else ⟨0, objects, aObjs⟩)
    ∧ lookupLoc (eraseLoc objects l) l = none := by
  refine ⟨?_, lookupLoc_eraseLoc_self objects l⟩
  unfold resolveInteraction
  rw [hobj]
  simp only [hden, if_false]
  split <;> rfl

/-- Witness for C2 at a concrete input: strength 2 against a monster of
strength 3 with draw 1/2 (the win chance is 2/5 < 1/2, so the agent
wins). -/
theorem combat_fixed_draw_dichotomy_witness :
    lookupLoc [((0, 0), GameObject.staticMonster 3)] ((0 : ℤ), (0 : ℤ))
        = some (GameObject.staticMonster 3)
    ∧ (2 : ℤ) + 3 ≠ 0 ∧ (0 : ℚ) ≤ 1 / 2 ∧ (1 : ℚ) / 2 < 1
    ∧ (resolveInteraction 7 1 0 [((0, 0), GameObject.staticMonster 3)] [[]]
          (0, 0) 2 (1 / 2) =
        some (if ((2 : ℤ) : ℚ) / (((2 : ℤ) : ℚ) + ((3 : ℤ) : ℚ)) < 1 / 2 then
                ⟨7 + 3, eraseLoc [((0, 0), GameObject.staticMonster 3)] (0, 0),
                 purgeLoop 1 0 [[]] (0, 0)⟩
              else ⟨0, [((0, 0), GameObject.staticMonster 3)], [[]]⟩)
       ∧ lookupLoc (eraseLoc [((0, 0), GameObject.staticMonster 3)] (0, 0))
           (0, 0) = none) :=
  ⟨by decide, by decide, by norm_num, by norm_num,
   combat_fixed_draw_dichotomy 7 1 0 [((0, 0), GameObject.staticMonster 3)]
     [[]] (0, 0) 2 3 (1 / 2) (by decide) (by decide) (by norm_num)
     (by norm_num)⟩

/-- Counterexample to C4 as stated: with resource 0 against a monster of
strength 5 and draw 1/2, the code's `draw > winChance` test fires (the
win chance is 0), so the agent wins — strength 10 + 5 = 15 with the
monster deleted — rather than losing with strength 0 and the monster in
place. -/
theorem zero_resource_combat_counterexample :
    resolveInteraction 10 1 0 [((0, 0), GameObject.staticMonster 5)] [[]]
        (0, 0) 0 (1 / 2) = some ⟨15, [], [[]]⟩
    ∧ resolveInteraction 10 1 0 [((0, 0), GameObject.staticMonster 5)] [[]]
        (0, 0) 0 (1 / 2)
      ≠ some ⟨0, [((0, 0), GameObject.staticMonster 5)], [[]]⟩ := by
  constructor
  · unfold resolveInteraction
    norm_num [lookupLoc, purgeLoop, eraseLoc, List.range_succ]
  · unfold resolveInteraction
    norm_num [lookupLoc, purgeLoop, eraseLoc, List.range_succ]

/-- C4 amended: with resource 0 against a monster of strictly positive
strength, the computed win chance is 0; for every draw in `(0, 1)` the
agent wins the fight (strength reset to the initial strength plus the
monster's strength, monster removed), and only a draw of exactly 0
produces the loss branch. -/
theorem zero_resource_combat (initialStrength : ℤ) (numAgents idx : ℕ)
    (objects : List (Loc × GameObject))
    (aObjs : List (List (Loc × GameObject))) (l : Loc) (ms : ℤ) (draw : ℚ)
    (hobj : lookupLoc objects l = some (GameObject.staticMonster ms))
    (hms : 0 < ms) (hd0 : 0 < draw) (hd1 : draw < 1) :
    ((0 : ℤ) : ℚ) / (((0 : ℤ) : ℚ) + (ms : ℚ)) = 0
    ∧ resolveInteraction initialStrength numAgents idx objects aObjs l 0 draw
        = some ⟨initialStrength + ms, eraseLoc objects l,
                purgeLoop numAgents idx aObjs l⟩
    ∧ lookupLoc (eraseLoc objects l) l = none
    ∧ resolveInteraction initialStrength numAgents idx objects aObjs l 0 0
        = some ⟨0, objects, aObjs⟩ := by
  have hden : (0 : ℤ) + ms ≠ 0 := by omega
  refine ⟨by simp, ?_, lookupLoc_eraseLoc_self objects l, ?_⟩
  · unfold resolveInteraction
    rw [hobj]
    simp only [hden, if_false]
    rw [if_pos]
    simpa using hd0
  · unfold resolveInteraction
    rw [hobj]
    simp only [hden, if_false]
    rw [if_neg]
    simp

/-- Witness for the amended C4 at a concrete input: resource 0, monster
strength 5, draw 1/2. -/
theorem zero_resource_combat_witness :
    lookupLoc [((0, 0), GameObject.staticMonster 5)] ((0 : ℤ), (0 : ℤ))
        = some (GameObject.staticMonster 5)
    ∧ (0 : ℤ) < 5 ∧ (0 : ℚ) < 1 / 2 ∧ (1 : ℚ) / 2 < 1
    ∧ (((0 : ℤ) : ℚ) / (((0 : ℤ) : ℚ) + ((5 : ℤ) : ℚ)) = 0
       ∧ resolveInteraction 10 1 0 [((0, 0), GameObject.staticMonster 5)]
           [[]] (0, 0) 0 (1 / 2)
         = some ⟨10 + 5, eraseLoc [((0, 0), GameObject.staticMonster 5)] (0, 0),
                 purgeLoop 1 0 [[]] (0, 0)⟩
       ∧ lookupLoc (eraseLoc [((0, 0), GameObject.staticMonster 5)] (0, 0))
           (0, 0) = none
       ∧ resolveInteraction 10 1 0 [((0, 0), GameObject.staticMonster 5)]
           [[]] (0, 0) 0 0
         = some ⟨0, [((0, 0), GameObject.staticMonster 5)], [[]]⟩) :=
  ⟨by decide, by decide, by norm_num, by norm_num,
   zero_resource_combat 10 1 0 [((0, 0), GameObject.staticMonster 5)] [[]]
     (0, 0) 5 (1 / 2) (by decide) (by decide) (by norm_num) (by norm_num)⟩

/-- Counterexample to C5 as stated: with resource 4 against a monster of
strength 0 and draw 1/2, the win chance is 1 and the code's
`draw > winChance` test cannot fire, so the agent loses — strength set to
0 with the monster still in the object map — rather than winning. -/
theorem zero_strength_combat_counterexample :
    resolveInteraction 10 1 0 [((0, 0), GameObject.staticMonster 0)] [[]]
        (0, 0) 4 (1 / 2)
      = some ⟨0, [((0, 0), GameObject.staticMonster 0)], [[]]⟩
    ∧ resolveInteraction 10 1 0 [((0, 0), GameObject.staticMonster 0)] [[]]
        (0, 0) 4 (1 / 2) ≠ some ⟨10 + 0, [], [[]]⟩ := by
  constructor
  · unfold resolveInteraction
    norm_num [lookupLoc]
  · unfold resolveInteraction
    norm_num [lookupLoc]

/-- C5 amended: against a monster of strength 0 with strictly positive
resource, the computed win chance is 1, and for every draw in `[0, 1)`
the agent loses the fight: its strength is set to 0 and the object map is
unchanged, so the monster remains. -/
theorem zero_strength_combat (initialStrength : ℤ) (numAgents idx : ℕ)
    (objects : List (Loc × GameObject))
    (aObjs : List (List (Loc × GameObject))) (l : Loc) (strength : ℤ)
    (draw : ℚ)
    (hobj : lookupLoc objects l = some (GameObject.staticMonster 0))
    (hstr : 0 < strength) (hd0 : 0 ≤ draw) (hd1 : draw < 1) :
    (strength : ℚ) / ((strength : ℚ) + ((0 : ℤ) : ℚ)) = 1
    ∧ resolveInteraction initialStrength numAgents idx objects aObjs l
        strength draw = some ⟨0, objects, aObjs⟩
    ∧ lookupLoc objects l = some (GameObject.staticMonster 0) := by
  have hcast : (strength : ℚ) ≠ 0 := by
    exact_mod_cast (by omega : strength ≠ 0)
  have hwc : (strength : ℚ) / ((strength : ℚ) + ((0 : ℤ) : ℚ)) = 1 := by
    rw [Int.cast_zero, add_zero, div_self hcast]
  have hden : strength + 0 ≠ 0 := by omega
  refine ⟨hwc, ?_, hobj⟩
  unfold resolveInteraction
  rw [hobj]
  simp only [hden, if_false]
  rw [if_neg]
  rw [hwc]
  exact not_lt.mpr hd1.le

/-- Witness for the amended C5 at a concrete input: resource 4, monster
strength 0, draw 1/2. -/
theorem zero_strength_combat_witness :
    lookupLoc [((0, 0), GameObject.staticMonster 0)] ((0 : ℤ), (0 : ℤ))
        = some (GameObject.staticMonster 0)
    ∧ (0 : ℤ) < 4 ∧ (0 : ℚ) ≤ 1 / 2 ∧ (1 : ℚ) / 2 < 1
    ∧ (((4 : ℤ) : ℚ) / (((4 : ℤ) : ℚ) + ((0 : ℤ) : ℚ)) = 1
       ∧ resolveInteraction 10 1 0 [((0, 0), GameObject.staticMonster 0)]
           [[]] (0, 0) 4 (1 / 2) = some ⟨0, [((0, 0), GameObject.staticMonster 0)], [[]]⟩
       ∧ lookupLoc [((0, 0), GameObject.staticMonster 0)] ((0 : ℤ), (0 : ℤ))
           = some (GameObject.staticMonster 0)) :=
  ⟨by decide, by decide, by norm_num, by norm_num,
   zero_strength_combat 10 1 0 [((0, 0), GameObject.staticMonster 0)] [[]]
     (0, 0) 4 (1 / 2) (by decide) (by decide) (by norm_num) (by norm_num)⟩

/-- C6 (the code faults): with both the agent's resource and the
monster's strength equal to 0, the win-chance computation divides by
zero — the Python driver raises `ZeroDivisionError` instead of treating
`0/0` as a win chance of 0 with a certain loss.  In the embedding the
fight returns `none`. -/
theorem zero_zero_combat_fault :
    resolveInteraction 10 1 0 [((0, 0), GameObject.staticMonster 0)] [[]]
        (0, 0) 0 (1 / 2) = none := by
  unfold resolveInteraction
  norm_num [lookupLoc]

/-- A concrete terrain-cost table for concrete evaluations: every tile
costs 1 (consistent with the spec's fixed non-negative per-variant
costs). -/
def unitCost : Tile → ℤ := fun _ => 1

/-- A concrete two-agent game for C3: agent 0 at `(0, 0)` next to a
power-up at `(0, 1)` that agent 1 already has in its private object
snapshot. -/
def purgeBugState : GameState :=
  { height := 3, width := 3,
    gameMap := fun _ => Tile.terrainA,
    objects := [((0, 1), GameObject.powerUp 5)],
    goalLoc := (2, 2),
    initialStrength := 10,
    numAgents := 2,
    agentLocs := [(0, 0), (2, 0)],
    agentStrengths := [10, 10],
    agentMaps := [[], []],
    agentObjects := [[], [((0, 1), GameObject.powerUp 5)]] }

/-- The step in which agent 0 walks onto the power-up. -/
def purgeBugResult : StepResult :=
  playStep unitCost purgeBugState 0 (some Direction.east) 0

/-- C3 (the code violates it): after agent 0 consumes the power-up at
`(0, 1)` the object is gone from the authoritative map and from agent 0's
private object map, but agent 1's private object map still references it:
the retraction loop `for i in range(len(self.agents))` deletes from
`self.agent_objects[idx]` instead of `self.agent_objects[i]`, so only the
acting agent's snapshot is purged. -/
theorem powerup_purge_bug :
    purgeBugResult.status = some Status.running
    ∧ lookupLoc purgeBugResult.state.objects (0, 1) = none
    ∧ lookupLoc (purgeBugResult.state.agentObjects.getD 0 []) (0, 1) = none
    ∧ lookupLoc (purgeBugResult.state.agentObjects.getD 1 []) (0, 1)
        = some (GameObject.powerUp 5) := by
  decide

/-- A concrete one-agent game for C7: agent 0 at `(0, 0)` with a fully
unexplored private map. -/
def invalidDecisionState : GameState :=
  { height := 3, width := 3,
    gameMap := fun _ => Tile.terrainA,
    objects := [],
    goalLoc := (2, 2),
    initialStrength := 10,
    numAgents := 1,
    agentLocs := [(0, 0)],
    agentStrengths := [10],
    agentMaps := [[]],
    agentObjects := [[]] }

/-- The step in which the decision function returns an invalid value. -/
def invalidDecisionResult : StepResult :=
  playStep unitCost invalidDecisionState 0 none 0

/-- Counterexample to C7 as stated: the contract-violation abort does
happen, but the acting agent's private map is not "exactly as it was at
the start of the step" — the visibility refresh runs before the decision
function is invoked, so cell `(0, 1)`, `Unknown` at the start of the
step, is already revealed as `TerrainA` in the aborted state. -/
theorem invalid_decision_counterexample :
    invalidDecisionResult.error = some StepError.invalidDecision
    ∧ lookupTile (invalidDecisionState.agentMaps.getD 0 []) (0, 1)
        = Tile.unknown
    ∧ lookupTile (invalidDecisionResult.state.agentMaps.getD 0 []) (0, 1)
        = Tile.terrainA := by
  decide

/-- C7 amended: when the decision function returns a value outside the
four directions, the run aborts with the contract-violation error before
any mutation of the authoritative game state — map, objects, goal, every
agent's location and resource are exactly as they were at the start of
the step, and every non-acting agent's private knowledge is untouched —
but the acting agent's private map and private object map have already
been updated by the step's visibility refresh. -/
theorem invalid_decision_aborts (tileCost : Tile → ℤ) (s : GameState)
    (idx : ℕ) (draw : ℚ) :
    ∃ s1, playStep tileCost s idx none draw
        = StepResult.err StepError.invalidDecision s1
      ∧ s1.height = s.height ∧ s1.width = s.width ∧ s1.gameMap = s.gameMap
      ∧ s1.objects = s.objects ∧ s1.goalLoc = s.goalLoc
      ∧ s1.initialStrength = s.initialStrength ∧ s1.numAgents = s.numAgents
      ∧ s1.agentLocs = s.agentLocs ∧ s1.agentStrengths = s.agentStrengths
      ∧ ∀ j, j ≠ idx →
          s1.agentMaps[j]? = s.agentMaps[j]?
          ∧ s1.agentObjects[j]? = s.agentObjects[j]? := by
  refine ⟨refreshState s idx, rfl, rfl, rfl, rfl, rfl, rfl, rfl, rfl, rfl,
    rfl, ?_⟩
  intro j hj
  exact ⟨List.getElem?_set_ne (fun h => hj h.symm),
         List.getElem?_set_ne (fun h => hj h.symm)⟩

/-- Witness for the amended C7 at the concrete game of the
counterexample. -/
theorem invalid_decision_aborts_witness :
    ∃ s1, playStep unitCost invalidDecisionState 0 none 0
        = StepResult.err StepError.invalidDecision s1
      ∧ s1.height = invalidDecisionState.height
      ∧ s1.width = invalidDecisionState.width
      ∧ s1.gameMap = invalidDecisionState.gameMap
      ∧ s1.objects = invalidDecisionState.objects
      ∧ s1.goalLoc = invalidDecisionState.goalLoc
      ∧ s1.initialStrength = invalidDecisionState.initialStrength
      ∧ s1.numAgents = invalidDecisionState.numAgents
      ∧ s1.agentLocs = invalidDecisionState.agentLocs
      ∧ s1.agentStrengths = invalidDecisionState.agentStrengths
      ∧ ∀ j, j ≠ 0 →
          s1.agentMaps[j]? = invalidDecisionState.agentMaps[j]?
          ∧ s1.agentObjects[j]? = invalidDecisionState.agentObjects[j]? :=
  invalid_decision_aborts unitCost invalidDecisionState 0 0

/-- C8: the termination check after move and object-interaction
resolution gives the death check strict priority over the win check: if
the acting agent's resource ends `≤ 0`, the step reports `died` and the
whole run ends there (no further agent acts), even if the final location
is the goal; otherwise, if the final location is the goal, the run ends
with `won`; otherwise the step is `running` and the run continues with
the next step of the round-robin cycle. -/
theorem termination_death_priority (tileCost : Tile → ℤ)
    (ds : ℕ → Option Direction) (draws : ℕ → ℚ) (fuel step : ℕ)
    (s s' : GameState) (st : Status) (idx : ℕ)
    (hidx : idx = step % s.numAgents)
    (hl1 : idx < s.agentStrengths.length) (hl2 : idx < s.agentLocs.length)
    (hstep : playStep tileCost s idx (ds step) (draws step)
      = StepResult.ok s' st) :
    (s'.agentStrengths.getD idx 0 ≤ 0 →
      st = Status.died idx
      ∧ playRun tileCost ds draws (fuel + 1) step s
          = RunResult.ended (Status.died idx) s')
    ∧ ((0 < s'.agentStrengths.getD idx 0
        ∧ s'.agentLocs.getD idx (0, 0) = s.goalLoc) →
      st = Status.won idx
      ∧ playRun tileCost ds draws (fuel + 1) step s
          = RunResult.ended (Status.won idx) s')
    ∧ ((0 < s'.agentStrengths.getD idx 0
        ∧ s'.agentLocs.getD idx (0, 0) ≠ s.goalLoc) →
      st = Status.running
      ∧ playRun tileCost ds draws (fuel + 1) step s
          = playRun tileCost ds draws fuel (step + 1) s') := by
  have hrun : playRun tileCost ds draws (fuel + 1) step s =
      match playStep tileCost s idx (ds step) (draws step) with
      | StepResult.err e s1 => RunResult.aborted e s1
      | StepResult.ok s1 Status.running =>
          playRun tileCost ds draws fuel (step + 1) s1
      | StepResult.ok s1 st => RunResult.ended st s1 := by
    rw [playRun, ← hidx]
  rw [hstep] at hrun
  unfold playStep at hstep
  rcases hds : ds step with _ | dir
  · rw [hds] at hstep
    exact absurd hstep (by simp)
  rw [hds] at hstep
  simp only at hstep
  split at hstep
  · exact absurd hstep (by simp)
  rename_i out hout
  have hstr :
      ((refreshState s idx).agentStrengths.set idx out.strength).getD idx 0
        = out.strength :=
    getD_set_self _ _ _ _ (by rw [refreshState_agentStrengths]; exact hl1)
  have hloc : ((refreshState s idx).agentLocs.set idx
        (moveResolve s.height s.width s.gameMap tileCost
          (s.agentLocs.getD idx (0, 0)) (s.agentStrengths.getD idx 0)
          dir).1).getD idx (0, 0)
      = (moveResolve s.height s.width s.gameMap tileCost
          (s.agentLocs.getD idx (0, 0)) (s.agentStrengths.getD idx 0)
          dir).1 :=
    getD_set_self _ _ _ _ (by rw [refreshState_agentLocs]; exact hl2)
  split_ifs at hstep with h1 h2
  · injection hstep with e1 e2
    subst e1
    subst e2
    refine ⟨fun _ => ⟨rfl, by rw [hrun]⟩, fun h => absurd h1 ?_, fun h => absurd h1 ?_⟩
    · have := h.1
      simp only [hstr] at this
      omega
    · have := h.1
      simp only [hstr] at this
      omega
  · injection hstep with e1 e2
    subst e1
    subst e2
    refine ⟨fun h => ?_, fun _ => ⟨rfl, by rw [hrun]⟩, fun h => ?_⟩
    · simp only [hstr] at h
      omega
    · exact absurd (hloc.trans h2) h.2
  · injection hstep with e1 e2
    subst e1
    subst e2
    refine ⟨fun h => ?_, fun h => ?_, fun _ => ⟨rfl, by rw [hrun]⟩⟩
    · simp only [hstr] at h
      omega
    · exact absurd (h.2.symm.trans hloc).symm h2

/-- A concrete one-agent game for the C8 witness: agent 0 at `(0, 0)`
moving east on an all-`TerrainA` map, ending alive and away from the
goal. -/
def terminationWitnessState : GameState :=
  { height := 3, width := 3,
    gameMap := fun _ => Tile.terrainA,
    objects := [],
    goalLoc := (2, 2),
    initialStrength := 10,
    numAgents := 1,
    agentLocs := [(0, 0)],
    agentStrengths := [10],
    agentMaps := [[]],
    agentObjects := [[]] }

/-- Witness for C8 at a concrete input: one agent stepping east from
`(0, 0)`, with all hypotheses of the termination theorem discharged by
computation. -/
theorem termination_death_priority_witness :
    (0 : ℕ) = 0 % terminationWitnessState.numAgents
    ∧ 0 < terminationWitnessState.agentStrengths.length
    ∧ 0 < terminationWitnessState.agentLocs.length
    ∧ ∃ s' st,
        playStep unitCost terminationWitnessState 0 (some Direction.east)
            (0 : ℚ) = StepResult.ok s' st
        ∧ ((s'.agentStrengths.getD 0 0 ≤ 0 →
              st = Status.died 0
              ∧ playRun unitCost (fun _ => some Direction.east)
                  (fun _ => (0 : ℚ)) 4 0 terminationWitnessState
                = RunResult.ended (Status.died 0) s')
           ∧ ((0 < s'.agentStrengths.getD 0 0
               ∧ s'.agentLocs.getD 0 (0, 0) = terminationWitnessState.goalLoc) →
              st = Status.won 0
              ∧ playRun unitCost (fun _ => some Direction.east)
                  (fun _ => (0 : ℚ)) 4 0 terminationWitnessState
                = RunResult.ended (Status.won 0) s')
           ∧ ((0 < s'.agentStrengths.getD 0 0
               ∧ s'.agentLocs.getD 0 (0, 0) ≠ terminationWitnessState.goalLoc) →
              st = Status.running
              ∧ playRun unitCost (fun _ => some Direction.east)
                  (fun _ => (0 : ℚ)) 4 0 terminationWitnessState
                = playRun unitCost (fun _ => some Direction.east)
                    (fun _ => (0 : ℚ)) 3 1 s')) := by
  refine ⟨rfl, by decide, by decide, ?_⟩
  refine ⟨_, _, rfl, ?_⟩
  exact termination_death_priority unitCost (fun _ => some Direction.east)
    (fun _ => (0 : ℚ)) 3 0 terminationWitnessState _ _ 0 rfl (by decide)
    (by decide) rfl

theorem getD_set_ne {α : Type} (l : List α) (i j : ℕ) (a d : α)
    (h : i ≠ j) : (l.set i a).getD j d = l.getD j d := by
  simp [List.getD_eq_getElem?_getD, List.getElem?_set_ne h]

/-- One refresh iteration is pointwise monotone: a queried private-map
cell either keeps its value, or it was `Unknown` and now holds the
authoritative terrain. -/
theorem refreshCell_mono (height width : ℤ) (gm : Loc → Tile)
    (objs : List (Loc × GameObject))
    (acc : List (Loc × Tile) × List (Loc × GameObject)) (l q : Loc) :
    lookupTile (refreshCell height width gm objs acc l).1 q
        = lookupTile acc.1 q
    ∨ (lookupTile acc.1 q = Tile.unknown
       ∧ lookupTile (refreshCell height width gm objs acc l).1 q = gm q) := by
  unfold refreshCell
  dsimp only
  split_ifs with h
  · by_cases hq : l = q
    · subst hq
      exact Or.inr ⟨h.2, by simp [lookupTile, lookupLoc]⟩
    · exact Or.inl (by simp [lookupTile, lookupLoc, hq])
  · exact Or.inl rfl

/-- The visibility-refresh fold is pointwise monotone over any list of
neighbor offsets. -/
theorem refresh_foldl_mono (height width : ℤ) (gm : Loc → Tile)
    (objs : List (Loc × GameObject)) (offs : List (ℤ × ℤ)) (cur : Loc)
    (acc : List (Loc × Tile) × List (Loc × GameObject)) (q : Loc) :
    lookupTile (offs.foldl
        (fun a off => refreshCell height width gm objs a
          (cur.1 + off.1, cur.2 + off.2)) acc).1 q
      = lookupTile acc.1 q
    ∨ (lookupTile acc.1 q = Tile.unknown
       ∧ lookupTile (offs.foldl
            (fun a off => refreshCell height width gm objs a
              (cur.1 + off.1, cur.2 + off.2)) acc).1 q = gm q) := by
  induction offs generalizing acc with
  | nil => exact Or.inl rfl
  | cons o rest ih =>
    rw [List.foldl_cons]
    rcases ih (refreshCell height width gm objs acc
        (cur.1 + o.1, cur.2 + o.2)) with h2 | ⟨h2u, h2v⟩ <;>
      rcases refreshCell_mono height width gm objs acc
          (cur.1 + o.1, cur.2 + o.2) q with h1 | ⟨h1u, h1v⟩
    · exact Or.inl (h2.trans h1)
    · exact Or.inr ⟨h1u, h2.trans h1v⟩
    · exact Or.inr ⟨h1.symm.trans h2u, h2v⟩
    · exact Or.inr ⟨h1u, h2v⟩

/-- Every branch of a step leaves `agentMaps` exactly as the visibility
refresh produced it: no later stage of the step writes private maps. -/
theorem refreshState_agentMaps (s : GameState) (idx : ℕ) :
    (refreshState s idx).agentMaps
      = s.agentMaps.set idx
          (refresh s.height s.width s.gameMap s.objects
            (s.agentLocs.getD idx (0, 0)) (s.agentMaps.getD idx [])
            (s.agentObjects.getD idx [])).1 := rfl

/-- The whole visibility refresh is pointwise monotone. -/
theorem refresh_mono (height width : ℤ) (gm : Loc → Tile)
    (objs : List (Loc × GameObject)) (cur : Loc) (pm : List (Loc × Tile))
    (po : List (Loc × GameObject)) (q : Loc) :
    lookupTile (refresh height width gm objs cur pm po).1 q = lookupTile pm q
    ∨ (lookupTile pm q = Tile.unknown
       ∧ lookupTile (refresh height width gm objs cur pm po).1 q = gm q) :=
  refresh_foldl_mono height width gm objs neighborOffsets cur (pm, po) q

theorem playStep_state_agentMaps (tileCost : Tile → ℤ) (s : GameState)
    (idx : ℕ) (d : Option Direction) (draw : ℚ) :
    ((playStep tileCost s idx d draw).state).agentMaps
      = (refreshState s idx).agentMaps := by
  cases d with
  | none => rfl
  | some dir =>
    unfold playStep
    split
    next => rfl
    next =>
      dsimp only
      split
      · rfl
      · split_ifs <;> rfl

/-- A single step is pointwise monotone on every agent's private map. -/
theorem playStep_map_mono (tileCost : Tile → ℤ) (s : GameState) (idx : ℕ)
    (d : Option Direction) (draw : ℚ) (j : ℕ) (q : Loc) :
    lookupTile (((playStep tileCost s idx d draw).state).agentMaps.getD j []) q
        = lookupTile (s.agentMaps.getD j []) q
    ∨ (lookupTile (s.agentMaps.getD j []) q = Tile.unknown
       ∧ lookupTile
           (((playStep tileCost s idx d draw).state).agentMaps.getD j []) q
         = s.gameMap q) := by
  rw [playStep_state_agentMaps, refreshState_agentMaps]
  by_cases hj : j = idx
  · subst hj
    by_cases hlen : j < s.agentMaps.length
    · rw [getD_set_self _ _ _ _ hlen]
      exact refresh_mono s.height s.width s.gameMap s.objects
        (s.agentLocs.getD j (0, 0)) (s.agentMaps.getD j [])
        (s.agentObjects.getD j []) q
    · rw [List.set_eq_of_length_le (by omega)]
      exact Or.inl rfl
  · rw [getD_set_ne _ _ _ _ _ (fun h => hj h.symm)]
    exact Or.inl rfl

/-- A revealed cell survives a whole run unchanged. -/
theorem playRun_map_preserved (tileCost : Tile → ℤ)
    (ds : ℕ → Option Direction) (draws : ℕ → ℚ) (fuel step : ℕ)
    (s : GameState) (j : ℕ) (q : Loc)
    (h : lookupTile (s.agentMaps.getD j []) q ≠ Tile.unknown) :
    lookupTile
        (((playRun tileCost ds draws fuel step s).state).agentMaps.getD j []) q
      = lookupTile (s.agentMaps.getD j []) q := by
  induction fuel generalizing step s with
  | zero => rfl
  | succ fuel ih =>
    have hmono : lookupTile
        (((playStep tileCost s (step % s.numAgents) (ds step)
            (draws step)).state).agentMaps.getD j []) q
        = lookupTile (s.agentMaps.getD j []) q := by
      rcases playStep_map_mono tileCost s (step % s.numAgents) (ds step)
          (draws step) j q with h1 | ⟨hu, _⟩
      · exact h1
      · exact absurd hu h
    cases hps : playStep tileCost s (step % s.numAgents) (ds step)
        (draws step) with
    | err e s1 =>
      rw [hps] at hmono
      rw [playRun]
      simp only [hps]
      exact hmono
    | ok s1 st =>
      rw [hps] at hmono
      dsimp only [StepResult.state] at hmono
      cases st with
      | running =>
        rw [playRun]
        simp only [hps]
        have h1 : lookupTile (s1.agentMaps.getD j []) q ≠ Tile.unknown := by
          rw [hmono]
          exact h
        rw [ih (step + 1) s1 h1]
        exact hmono
      | died i =>
        rw [playRun]
        simp only [hps]
        exact hmono
      | won i =>
        rw [playRun]
        simp only [hps]
        exact hmono

/-- C9: private maps are monotone fog of war.  First part: in any single
step, each cell of each agent's private map either keeps its value or
transitions from `Unknown` to the authoritative terrain at that cell.
Second part: over any whole run, a cell that is no longer `Unknown` is
never changed again. -/
theorem fog_of_war_monotone (tileCost : Tile → ℤ)
    (ds : ℕ → Option Direction) (draws : ℕ → ℚ) (fuel step : ℕ)
    (s : GameState) (idx : ℕ) (d : Option Direction) (draw : ℚ) (j : ℕ)
    (q : Loc) :
    (lookupTile (((playStep tileCost s idx d draw).state).agentMaps.getD j []) q
        = lookupTile (s.agentMaps.getD j []) q
     ∨ (lookupTile (s.agentMaps.getD j []) q = Tile.unknown
        ∧ lookupTile
            (((playStep tileCost s idx d draw).state).agentMaps.getD j []) q
          = s.gameMap q))
    ∧ (lookupTile (s.agentMaps.getD j []) q ≠ Tile.unknown →
       lookupTile
           (((playRun tileCost ds draws fuel step s).state).agentMaps.getD j [])
           q
         = lookupTile (s.agentMaps.getD j []) q) :=
  ⟨playStep_map_mono tileCost s idx d draw j q,
   fun h => playRun_map_preserved tileCost ds draws fuel step s j q h⟩

/-- Witness for C9 at a concrete input: a revealed `TerrainB` cell in an
agent's private map survives a two-step run over an all-`TerrainA`
authoritative map. -/
theorem fog_of_war_monotone_witness :
    lookupTile
        ([((0, 1), Tile.terrainB)] : List (Loc × Tile)) (0, 1)
        ≠ Tile.unknown
    ∧ lookupTile
        (((playRun unitCost (fun _ => some Direction.east) (fun _ => (0 : ℚ))
            2 0
            { height := 3, width := 3, gameMap := fun _ => Tile.terrainA,
              objects := [], goalLoc := (2, 2), initialStrength := 10,
              numAgents := 1, agentLocs := [(0, 0)], agentStrengths := [10],
              agentMaps := [[((0, 1), Tile.terrainB)]],
              agentObjects := [[]] }).state).agentMaps.getD 0 []) (0, 1)
      = lookupTile ([((0, 1), Tile.terrainB)] : List (Loc × Tile)) (0, 1) :=
  ⟨by decide,
   (fog_of_war_monotone unitCost (fun _ => some Direction.east)
      (fun _ => (0 : ℚ)) 2 0
      { height := 3, width := 3, gameMap := fun _ => Tile.terrainA,
        objects := [], goalLoc := (2, 2), initialStrength := 10,
        numAgents := 1, agentLocs := [(0, 0)], agentStrengths := [10],
        agentMaps := [[((0, 1), Tile.terrainB)]],
        agentObjects := [[]] } 0 (some Direction.east) 0 0 (0, 1)).2
     (by decide)⟩

/-- Membership in the non-wall cell list really means the authoritative
terrain there is not a wall. -/
theorem nonwallLocs_not_wall (h w : ℕ) (gm : Loc → Tile) (l : Loc)
    (hl : l ∈ nonwallLocs h w gm) : gm l ≠ Tile.wall := by
  unfold nonwallLocs at hl
  simp only [List.mem_flatMap, List.mem_filterMap, List.mem_range] at hl
  obtain ⟨i, _, j, _, hij⟩ := hl
  by_cases hw : gm ((i : ℤ), (j : ℤ)) = Tile.wall
  · simp [hw] at hij
  · simp only [hw, if_false, Option.some_inj] at hij
    rwa [← hij]

/-- Any location produced by the re-draw loop is a non-wall cell
different from the goal and from every already placed agent. -/
theorem drawLoc_spec (nonwall : List Loc) (goal : Loc) (prev : List Loc)
    (picks : ℕ → ℕ) (fuel t : ℕ) (loc : Loc) (t1 : ℕ)
    (hpicks : ∀ u, picks u < nonwall.length)
    (hdraw : drawLoc nonwall goal prev picks fuel t = some (loc, t1)) :
    loc ∈ nonwall ∧ loc ≠ goal ∧ loc ∉ prev := by
  induction fuel generalizing t with
  | zero => exact absurd hdraw (by simp [drawLoc])
  | succ fuel ih =>
    rw [drawLoc] at hdraw
    split_ifs at hdraw with hc
    · exact ih (t + 1) hdraw
    · push_neg at hc
      simp only [Option.some_inj, Prod.mk.injEq] at hdraw
      obtain ⟨hl, _⟩ := hdraw
      subst hl
      refine ⟨?_, hc.1, hc.2⟩
      rw [List.getD_eq_getElem _ _ (hpicks t)]
      exact List.getElem_mem (hpicks t)

/-- The agent-placement loop only ever appends locations valid against
the accumulator, so validity and distinctness are invariant. -/
theorem placeAgents_spec (nonwall : List Loc) (goal : Loc) (picks : ℕ → ℕ)
    (fuel : ℕ) (hpicks : ∀ u, picks u < nonwall.length) :
    ∀ (n t : ℕ) (acc locs : List Loc) (t1 : ℕ),
      placeAgents nonwall goal picks fuel n t acc = some (locs, t1) →
      (∀ l ∈ acc, l ∈ nonwall ∧ l ≠ goal) → acc.Nodup →
      (∀ l ∈ locs, l ∈ nonwall ∧ l ≠ goal) ∧ locs.Nodup := by
  intro n
  induction n with
  | zero =>
    intro t acc locs t1 hp hacc hnd
    rw [placeAgents] at hp
    simp only [Option.some_inj, Prod.mk.injEq] at hp
    obtain ⟨hl, _⟩ := hp
    subst hl
    exact ⟨hacc, hnd⟩
  | succ n ih =>
    intro t acc locs t1 hp hacc hnd
    rw [placeAgents] at hp
    cases hd : drawLoc nonwall goal acc picks fuel t with
    | none =>
      rw [hd] at hp
      exact absurd hp (by simp)
    | some p =>
      obtain ⟨loc, t2⟩ := p
      rw [hd] at hp
      obtain ⟨hmem, hgoal, hnin⟩ :=
        drawLoc_spec nonwall goal acc picks fuel t loc t2 hpicks hd
      refine ih t2 (acc ++ [loc]) locs t1 hp ?_ ?_
      · intro l hl
        rcases List.mem_append.mp hl with hl | hl
        · exact hacc l hl
        · rw [List.mem_singleton.mp hl]
          exact ⟨hmem, hgoal⟩
      · simp [List.nodup_append, hnd, hnin]

/-- C10: after random initialization, every agent's starting location is
drawn from the non-wall cells of the generated map, differs from the
goal (boss) location, and differs from every other agent's starting
location. -/
theorem agent_placement_valid (h w : ℕ) (gm : Loc → Tile) (goal : Loc)
    (picks : ℕ → ℕ) (fuel n t t1 : ℕ) (locs : List Loc)
    (hpicks : ∀ u, picks u < (nonwallLocs h w gm).length)
    (hplace : placeAgents (nonwallLocs h w gm) goal picks fuel n t []
      = some (locs, t1)) :
    (∀ l ∈ locs,
      l ∈ nonwallLocs h w gm ∧ gm l ≠ Tile.wall ∧ l ≠ goal)
    ∧ locs.Nodup := by
  obtain ⟨hall, hnd⟩ := placeAgents_spec (nonwallLocs h w gm) goal picks
    fuel hpicks n t [] locs t1 hplace (by simp) (by simp)
  exact ⟨fun l hl => ⟨(hall l hl).1,
    nonwallLocs_not_wall h w gm l (hall l hl).1, (hall l hl).2⟩, hnd⟩

/-- Modelled from the spec: a tiny concrete generated map for the C10
witness — a 2×2 board whose `(0, 0)` cell is a wall. -/
def wallMap : Loc → Tile := fun l => if l = (0, 0) then Tile.wall else Tile.terrainA

/-- The `np.random.choice` oracle for the C10 witness. -/
def wallPicks : ℕ → ℕ := fun u => u % 3

/-- Witness for C10 at a concrete input: placing two agents on the 2×2
board with goal `(0, 1)`; the first draw hits the goal and is re-drawn. -/
theorem agent_placement_valid_witness :
    (∀ u, wallPicks u < (nonwallLocs 2 2 wallMap).length)
    ∧ placeAgents (nonwallLocs 2 2 wallMap) (0, 1) wallPicks 5 2 0 []
        = some ([(1, 0), (1, 1)], 3)
    ∧ ((∀ l ∈ ([(1, 0), (1, 1)] : List Loc),
          l ∈ nonwallLocs 2 2 wallMap ∧ wallMap l ≠ Tile.wall ∧ l ≠ (0, 1))
       ∧ ([(1, 0), (1, 1)] : List Loc).Nodup) := by
  have hlen : (nonwallLocs 2 2 wallMap).length = 3 := by decide
  have hp : ∀ u, wallPicks u < (nonwallLocs 2 2 wallMap).length := by
    intro u
    rw [hlen]
    exact Nat.mod_lt u (by decide)
  refine ⟨hp, by decide, ?_⟩
  exact agent_placement_valid 2 2 wallMap (0, 1) wallPicks 5 2 0 3
    [(1, 0), (1, 1)] hp (by decide)

end Game
